import Mathlib

/-!
# dfotose image pipeline: worker supervisor, job handler, queue status

A shallow embedding of

* `workers.js` (the cluster master that forks and re-forks worker processes),
* `src/server/image-processor.js` (the `imageQueue.process` handler with its
  `checkComplete` fan-in over three asynchronous sub-tasks), and
* the `state` expression of `GET /image/queue-status/:galleryId` in
  `src/server/routes/image-api.js`,

followed by theorems about them.

JavaScript numbers are IEEE-754 binary64 values.  The two arithmetic
expressions of the source, `Math.floor(numCPUs / 2)` and
`Math.floor((completed / 3) * 100)`, are embedded with an explicit
round-to-nearest-even model of binary64 (`F64`), so that the integers the
program reports are the ones a JavaScript engine computes.
-/

namespace Dfotose

/-! ## JavaScript values -/

/-- The JavaScript values that can occur in a job payload or in a job field:
`undefined`, `null`, booleans, integral numbers (such as timestamps), `NaN`,
strings, and references to objects or arrays. -/
inductive JsValue where
  | undefined
  | null
  | bool (b : Bool)
  | number (n : Int)
  | nan
  | string (s : String)
  | object (ref : Nat)
  deriving DecidableEq, Repr

/-- JavaScript `ToBoolean`: the falsy values are `undefined`, `null`, `false`,
`0`, `NaN` and the empty string. -/
def JsValue.truthy : JsValue → Bool
  | .undefined => false
  | .null => false
  | .bool b => b
  | .number n => n != 0
  | .nan => false
  | .string s => s != ""
  | .object _ => true

/-- The JavaScript operator `a || b`: `a` when `a` is truthy, `b` otherwise. -/
def JsValue.or (a b : JsValue) : JsValue :=
  if a.truthy then a else b

/-! ## Binary64 arithmetic -/

/-- A finite, non-negative binary64 value `man * 2 ^ exp`.  Only normal values
are produced by the operations below (exponent range and subnormals are not
modelled; the operands of the source are small non-negative integers). -/
structure F64 where
  man : Nat
  exp : Int
  deriving DecidableEq, Repr

/-- The integer nearest to `n / d`, ties going to the even neighbour. -/
def roundHalfEven (n d : Nat) : Nat :=
  if 2 * (n % d) > d then n / d + 1
  else if 2 * (n % d) = d then (if (n / d) % 2 = 1 then n / d + 1 else n / d)
  else n / d

/-- Worker of `ilog2`: halve `n` until it is below 2, at most `fuel` times. -/
def ilog2Aux : Nat → Nat → Nat
  | 0, _ => 0
  | fuel + 1, n => if 2 ≤ n then ilog2Aux fuel (n / 2) + 1 else 0

/-- The position of the leading bit of `n`: `⌊log₂ n⌋` for `n ≠ 0`, and `0`
for `n = 0`. -/
def ilog2 (n : Nat) : Nat := ilog2Aux n n

/-- Round the exact value `(n / d) * 2 ^ e` to a 53-bit significand, to nearest
with ties to even.  For `n ≠ 0` the significand is scaled into
`[2 ^ 52, 2 ^ 53)` before rounding. -/
def F64.round (n d : Nat) (e : Int) : F64 :=
  if n = 0 then ⟨0, 0⟩
  else
    let s : Int := (ilog2 n : Int) - (ilog2 d : Int) - 52
    let N := n * 2 ^ (-s).toNat
    let D := d * 2 ^ s.toNat
    if N < D * 2 ^ 52 then ⟨roundHalfEven (2 * N) D, s - 1 + e⟩
    else ⟨roundHalfEven N D, s + e⟩

/-- The binary64 value of a non-negative integer literal or counter. -/
def F64.ofNat (n : Nat) : F64 := F64.round n 1 0

/-- Binary64 division `a / b` of finite non-negative values, `b` non-zero. -/
def F64.div (a b : F64) : F64 := F64.round a.man b.man (a.exp - b.exp)

/-- Binary64 multiplication `a * b` of finite non-negative values. -/
def F64.mul (a b : F64) : F64 := F64.round (a.man * b.man) 1 (a.exp + b.exp)

/-- The function `Math.floor` on a finite non-negative value, as an integer. -/
def F64.floor (a : F64) : Nat := a.man * 2 ^ a.exp.toNat / 2 ^ (-a.exp).toNat

/-! ## `workers.js`: the cluster master -/

/-- The state of the cluster master that the claims observe: the number of
live worker processes and the number of `cluster.fork()` calls made so far. -/
structure Master where
  workers : Nat
  forks : Nat
  deriving DecidableEq, Repr

/-- One call of `cluster.fork()`: a new worker process is started. -/
def Master.fork (m : Master) : Master :=
  { workers := m.workers + 1, forks := m.forks + 1 }

/-- The constant `numWorkers = Math.max(1, Math.floor(numCPUs / 2))`, where
`numCPUs = os.cpus().length`. -/
def numWorkers (numCPUs : Nat) : Nat :=
  max 1 (F64.floor (F64.div (F64.ofNat numCPUs) (F64.ofNat 2)))

/-- The loop `for (let i = 0; i < numWorkers; i++) cluster.fork()`, entered
with loop variable `i`. -/
def forkLoop (numWorkers : Nat) (i : Nat) (m : Master) : Master :=
  if i < numWorkers then forkLoop numWorkers (i + 1) m.fork else m
termination_by numWorkers - i

/-- The master branch of `workers.js` up to the registration of the exit
handler: compute `numWorkers` and fork that many workers. -/
def startMaster (numCPUs : Nat) : Master :=
  forkLoop (numWorkers numCPUs) 0 { workers := 0, forks := 0 }

/-- The handler `cluster.on("exit", ...)`: log and fork once. -/
def onExit (m : Master) : Master := m.fork

/-- One worker exit event: a live worker process dies (the event cannot occur
when no worker is alive) and the master runs its exit handler. -/
def exitEvent (m : Master) : Option Master :=
  if m.workers = 0 then none
  else some (onExit { m with workers := m.workers - 1 })

/-- The master after `k` successive worker exit events. -/
def runExits : Nat → Master → Option Master
  | 0, m => some m
  | k + 1, m => (exitEvent m).bind (runExits k)

/-! ## `image-processor.js`: the job handler -/

/-- The job payload `job.data`, as enqueued by the upload route. -/
structure JobData where
  fullSizeImagePath : String
  galleryPath : String
  filename : String
  extension : String
  userCid : JsValue
  galleryId : JsValue
  userFullname : JsValue
  deriving DecidableEq, Repr

/-- The object passed to `new Image(...)`. -/
structure ImageDoc where
  filename : String
  authorCid : JsValue
  galleryId : JsValue
  thumbnail : String
  preview : String
  fullSize : String
  shotAt : Int
  author : JsValue
  deriving DecidableEq, Repr

/-- The success value passed to `done(null, ...)`. -/
structure JobResult where
  filename : String
  thumbnail : String
  preview : String
  deriving DecidableEq, Repr

/-- A call of the `done` callback: `done(new Error(msg))` or
`done(null, result)`. -/
inductive DoneCall where
  | error (message : String)
  | success (result : JobResult)
  deriving DecidableEq, Repr

/-- The three asynchronous sub-tasks a job is fanned out into. -/
inductive SubTask where
  | thumbnail
  | preview
  | save
  deriving DecidableEq, Repr

/-- What the handler depends on from outside: Node's `path.resolve` and the
clock read by `moment()`. -/
structure Env where
  resolve : List String → String
  now : Int

/-- The constant `thumbnailPath`. -/
def thumbnailPath (env : Env) (data : JobData) : String :=
  env.resolve [data.galleryPath, "thumbnails", data.filename ++ "." ++ data.extension]

/-- The constant `previewPath`. -/
def previewPath (env : Env) (data : JobData) : String :=
  env.resolve [data.galleryPath, "previews", data.filename ++ "." ++ data.extension]

/-- The document `newImage` built by the handler. -/
def newImage (env : Env) (data : JobData) : ImageDoc :=
  { filename := data.filename
    authorCid := data.userCid
    galleryId := data.galleryId
    thumbnail := thumbnailPath env data
    preview := previewPath env data
    fullSize := data.fullSizeImagePath
    shotAt := env.now
    author := data.userFullname.or (.string "") }

/-- The state of one handler invocation: its local variables `completed` and
`errors`, the values passed to `job.progress` so far and the calls of `done`
so far (both oldest first), and the documents held by the Image collection. -/
structure HandlerState where
  completed : Nat
  errors : List String
  progressLog : List Nat
  doneLog : List DoneCall
  images : List ImageDoc
  deriving DecidableEq, Repr

/-- The value `Math.floor((completed / 3) * 100)`. -/
def progressOf (completed : Nat) : Nat :=
  F64.floor (F64.mul (F64.div (F64.ofNat completed) (F64.ofNat 3)) (F64.ofNat 100))

/-- The function `checkComplete`. -/
def checkComplete (env : Env) (data : JobData) (s : HandlerState) : HandlerState :=
  let s1 := { s with completed := s.completed + 1 }
  let s2 := { s1 with progressLog := s1.progressLog ++ [progressOf s1.completed] }
  if s2.completed = 3 then
    if s2.errors.length > 0 then
      { s2 with doneLog := s2.doneLog ++ [DoneCall.error (", ".intercalate s2.errors)] }
    else
      { s2 with doneLog := s2.doneLog ++ [DoneCall.success
          { filename := data.filename
            thumbnail := thumbnailPath env data
            preview := previewPath env data }] }
  else s2

/-- The string a sub-task pushes onto `errors` when it fails. -/
def SubTask.reason : SubTask → String
  | .thumbnail => "thumbnail failed"
  | .preview => "preview failed"
  | .save => "database save failed"

/-- The callback of a sub-task, called with `err` (`none` for a null error):
push the reason on failure, then `checkComplete`.  The three callbacks of the
source differ only in the reason string and the log lines. -/
def callback (env : Env) (data : JobData) (t : SubTask) (err : Option String)
    (s : HandlerState) : HandlerState :=
  checkComplete env data
    (if err.isSome then { s with errors := s.errors ++ [t.reason] } else s)

/-- The handler body up to its return: the local variables are initialised and
the three sub-tasks are started; nothing has been reported yet.  `images` is
the Image collection before the job. -/
def startJob (images : List ImageDoc) : HandlerState :=
  { completed := 0, errors := [], progressLog := [], doneLog := [], images := images }

/-- Sub-task `t` finishes with outcome `err`: a `newImage.save` that succeeds
has stored the document, and then the callback of `t` runs. -/
def finish (env : Env) (data : JobData) (s : HandlerState)
    (t : SubTask) (err : Option String) : HandlerState :=
  callback env data t err
    (if t = .save ∧ err.isNone then { s with images := s.images ++ [newImage env data] }
     else s)

/-- The handler run to the end of the sub-tasks listed in `order`, each ending
with the outcome `outcome` gives it. -/
def runJob (env : Env) (data : JobData) (outcome : SubTask → Option String)
    (images : List ImageDoc) (order : List SubTask) : HandlerState :=
  order.foldl (fun s t => finish env data s t (outcome t)) (startJob images)

/-- The three sub-tasks in the order the handler starts them. -/
def allTasks : List SubTask := [.thumbnail, .preview, .save]

/-! ## `image-api.js`: the queue-status route -/

/-- The fields of a queue job that the status route reads. -/
structure QueueJob where
  finishedOn : JsValue
  processedOn : JsValue
  failedReason : JsValue
  deriving DecidableEq, Repr

/-- The expression
`job.finishedOn ? "completed" : job.processedOn ? "active" :
 job.failedReason ? "failed" : "waiting"`. -/
def queueState (job : QueueJob) : String :=
  if job.finishedOn.truthy then "completed"
  else if job.processedOn.truthy then "active"
  else if job.failedReason.truthy then "failed"
  else "waiting"

/-! ## Specification vocabulary -/

/-- Number of positions of `s` at which the pattern `p` occurs. -/
def occurrencesAux (p : List Char) : List Char → Nat
  | [] => if p.isEmpty then 1 else 0
  | c :: cs => (if p.isPrefixOf (c :: cs) then 1 else 0) + occurrencesAux p cs

/-- Number of occurrences of the string `p` inside the string `s`. -/
def occurrences (p s : String) : Nat := occurrencesAux p.data s.data

/-- The job reached the terminal state `completed`: `done` was called with a
success value. -/
def reachedCompleted (s : HandlerState) : Prop :=
  ∃ r, DoneCall.success r ∈ s.doneLog

/-- The job reached the terminal state `failed`: `done` was called with an
error. -/
def reachedFailed (s : HandlerState) : Prop :=
  ∃ msg, DoneCall.error msg ∈ s.doneLog

/-- The call of `done` that `checkComplete` makes for a final value `errors`
of the error list. -/
def verdict (env : Env) (data : JobData) (errors : List String) : DoneCall :=
  if errors.length > 0 then DoneCall.error (", ".intercalate errors)
  else DoneCall.success
    { filename := data.filename
      thumbnail := thumbnailPath env data
      preview := previewPath env data }

/-- Whether a call of `done` reports success. -/
def DoneCall.isSuccess : DoneCall → Bool
  | .error _ => false
  | .success _ => true

/-- The sub-tasks of `order` that fail under `outcome`, in completion order. -/
def failedTasks (outcome : SubTask → Option String) (order : List SubTask) : List SubTask :=
  order.filter (fun t => (outcome t).isSome)

/-- All duplicate-free lists of sub-tasks. -/
def taskLists : List (List SubTask) :=
  [[], [.thumbnail], [.preview], [.save],
   [.thumbnail, .preview], [.thumbnail, .save], [.preview, .thumbnail],
   [.preview, .save], [.save, .thumbnail], [.save, .preview],
   [.thumbnail, .preview, .save], [.thumbnail, .save, .preview],
   [.preview, .thumbnail, .save], [.preview, .save, .thumbnail],
   [.save, .thumbnail, .preview], [.save, .preview, .thumbnail]]

/-- Outcomes for concrete examples: the thumbnail transform fails, the other
two sub-tasks succeed. -/
def thumbnailFails : SubTask → Option String
  | .thumbnail => some "Input file is missing"
  | _ => none

/-- Outcomes for concrete examples: both transforms fail, the save succeeds. -/
def transformsFail : SubTask → Option String
  | .thumbnail => some "Input file is missing"
  | .preview => some "Input file is missing"
  | .save => none

/-- A simple `path.resolve` for concrete examples: join with `/`. -/
def joinPath (parts : List String) : String := "/".intercalate parts

/-- An environment for concrete examples. -/
def sampleEnv : Env := { resolve := joinPath, now := 1700000000000 }

/-- A job payload for concrete examples. -/
def sampleData : JobData :=
  { fullSizeImagePath := "/storage/g1/photo1.jpg"
    galleryPath := "/storage/g1"
    filename := "photo1"
    extension := "jpg"
    userCid := .string "alice"
    galleryId := .string "g1"
    userFullname := .string "Alice" }

/-! ## Lemmas on the binary64 model -/

theorem ilog2Aux_spec : ∀ (fuel n : Nat), n ≤ fuel → n ≠ 0 →
    2 ^ ilog2Aux fuel n ≤ n ∧ n < 2 ^ (ilog2Aux fuel n + 1) := by
  intro fuel
  induction fuel with
  | zero => intro n h h0; omega
  | succ f ih =>
    intro n h h0
    unfold ilog2Aux
    by_cases h2 : 2 ≤ n
    · have hh := ih (n / 2) (by omega) (by omega)
      simp only [h2, if_true]
      obtain ⟨a, b⟩ := hh
      rw [pow_succ] at b ⊢
      rw [pow_succ]
      constructor <;> omega
    · simp only [h2, if_false]
      have : n = 1 := by omega
      subst this
      simp

theorem ilog2_spec (n : Nat) (h0 : n ≠ 0) : 2 ^ ilog2 n ≤ n ∧ n < 2 ^ (ilog2 n + 1) :=
  ilog2Aux_spec n n (le_refl n) h0

theorem ilog2_unique (n k : Nat) (h1 : 2 ^ k ≤ n) (h2 : n < 2 ^ (k + 1)) : ilog2 n = k := by
  have h0 : n ≠ 0 := by
    have : 0 < 2 ^ k := Nat.two_pow_pos k
    omega
  obtain ⟨a, b⟩ := ilog2_spec n h0
  have c1 : ilog2 n < k + 1 := (Nat.pow_lt_pow_iff_right (by norm_num : 1 < 2)).1 (lt_of_le_of_lt a h2)
  have c2 : k < ilog2 n + 1 := (Nat.pow_lt_pow_iff_right (by norm_num : 1 < 2)).1 (lt_of_le_of_lt h1 b)
  omega


theorem roundHalfEven_mul (m d : Nat) (hd : 0 < d) : roundHalfEven (m * d) d = m := by
  unfold roundHalfEven
  have h1 : m * d % d = 0 := Nat.mul_mod_left m d
  have h2 : m * d / d = m := Nat.mul_div_cancel m hd
  rw [h1, h2]
  have h3 : ¬ (2 * 0 > d) := by omega
  have h4 : ¬ (2 * 0 = d) := by omega
  simp only [h3, h4, if_false]

/-- Rounding `n / 2 ^ j * 2 ^ e` for an integer `n` of at most 53 bits is exact: the
result is `n` shifted to a 53-bit significand. -/
theorem F64.round_exact (n j : Nat) (e : Int) (h0 : n ≠ 0) (h : n < 2 ^ 53) :
    F64.round n (2 ^ j) e =
      ⟨n * 2 ^ (52 - ilog2 n), (ilog2 n : Int) - j - 52 + e⟩ := by
  obtain ⟨a, b⟩ := ilog2_spec n h0
  have hL : ilog2 n ≤ 52 := by
    have : ilog2 n < 53 := (Nat.pow_lt_pow_iff_right (by norm_num : 1 < 2)).1 (lt_of_le_of_lt a h)
    omega
  have hj : ilog2 (2 ^ j) = j :=
    ilog2_unique (2 ^ j) j (le_refl _) (Nat.pow_lt_pow_right (by norm_num) (by omega))
  unfold F64.round
  simp only [h0, if_false, hj]
  have e1 : (-((ilog2 n : Int) - (j : Int) - 52)).toNat = (52 - ilog2 n) + j := by omega
  have e2 : ((ilog2 n : Int) - (j : Int) - 52).toNat = 0 := by omega
  rw [e1, e2]
  have hN : n * 2 ^ (52 - ilog2 n + j) = (n * 2 ^ (52 - ilog2 n)) * 2 ^ j := by
    rw [pow_add, Nat.mul_assoc]
  have hbig : 2 ^ 52 ≤ n * 2 ^ (52 - ilog2 n) := by
    calc 2 ^ 52 = 2 ^ (ilog2 n + (52 - ilog2 n)) := by congr 1; omega
      _ = 2 ^ ilog2 n * 2 ^ (52 - ilog2 n) := pow_add _ _ _
      _ ≤ n * 2 ^ (52 - ilog2 n) := Nat.mul_le_mul_right _ a
  have hnot : ¬ (n * 2 ^ (52 - ilog2 n + j) < 2 ^ j * 2 ^ 0 * 2 ^ 52) := by
    rw [hN, pow_zero, Nat.mul_one, Nat.mul_comm (2 ^ j) (2 ^ 52)]
    exact Nat.not_lt.2 (Nat.mul_le_mul_right _ hbig)
  simp only [hnot, if_false]
  rw [pow_zero, Nat.mul_one, hN, roundHalfEven_mul _ _ (Nat.two_pow_pos j)]

theorem F64.floor_div_two (n : Nat) (h : n < 2 ^ 53) :
    F64.floor (F64.div (F64.ofNat n) (F64.ofNat 2)) = n / 2 := by
  have h2 : F64.ofNat 2 = ⟨2 ^ 52, -51⟩ := by decide
  by_cases h0 : n = 0
  · subst h0
    decide
  · obtain ⟨a, b⟩ := ilog2_spec n h0
    have hL : ilog2 n ≤ 52 := by
      have : ilog2 n < 53 := (Nat.pow_lt_pow_iff_right (by norm_num : 1 < 2)).1 (lt_of_le_of_lt a h)
      omega
    have hbig : 2 ^ 52 ≤ n * 2 ^ (52 - ilog2 n) := by
      calc 2 ^ 52 = 2 ^ (ilog2 n + (52 - ilog2 n)) := by congr 1; omega
        _ = 2 ^ ilog2 n * 2 ^ (52 - ilog2 n) := pow_add _ _ _
        _ ≤ n * 2 ^ (52 - ilog2 n) := Nat.mul_le_mul_right _ a
    have hsmall : n * 2 ^ (52 - ilog2 n) < 2 ^ 53 := by
      calc n * 2 ^ (52 - ilog2 n) < 2 ^ (ilog2 n + 1) * 2 ^ (52 - ilog2 n) :=
            Nat.mul_lt_mul_of_pos_right b (Nat.two_pow_pos _)
        _ = 2 ^ (ilog2 n + 1 + (52 - ilog2 n)) := (pow_add _ _ _).symm
        _ = 2 ^ 53 := by congr 1; omega
    have hm : ilog2 (n * 2 ^ (52 - ilog2 n)) = 52 := ilog2_unique _ 52 hbig hsmall
    have h1 : F64.ofNat n = ⟨n * 2 ^ (52 - ilog2 n), (ilog2 n : Int) - 52⟩ := by
      have := F64.round_exact n 0 0 h0 h
      simpa [F64.ofNat] using this
    rw [h1, h2]
    unfold F64.div
    have hm0 : n * 2 ^ (52 - ilog2 n) ≠ 0 := by omega
    rw [F64.round_exact _ 52 _ hm0 hsmall, hm]
    unfold F64.floor
    simp only [Nat.sub_self, pow_zero, Nat.mul_one]
    have e1 : (((52 : Nat) : Int) - ((52 : Nat) : Int) - 52 + ((ilog2 n : Int) - 52 - -51)).toNat = 0 := by omega
    have e2 : (-(((52 : Nat) : Int) - ((52 : Nat) : Int) - 52 + ((ilog2 n : Int) - 52 - -51))).toNat
        = (52 - ilog2 n) + 1 := by omega
    rw [e1, e2, pow_zero, Nat.mul_one, pow_succ, Nat.mul_comm (2 ^ (52 - ilog2 n)) 2,
      Nat.mul_div_mul_right _ _ (Nat.two_pow_pos _)]

/-! ## The cluster master -/

theorem forkLoop_eq (numWorkers : Nat) : ∀ (d i : Nat) (m : Master), numWorkers - i = d →
    forkLoop numWorkers i m = ⟨m.workers + d, m.forks + d⟩ := by
  intro d
  induction d with
  | zero =>
    intro i m h
    unfold forkLoop
    have : ¬ i < numWorkers := by omega
    simp [this]
  | succ d ih =>
    intro i m h
    unfold forkLoop
    have hi : i < numWorkers := by omega
    rw [if_pos hi, ih (i + 1) m.fork (by omega)]
    simp only [Master.fork, Master.mk.injEq]
    omega

theorem startMaster_eq (numCPUs : Nat) :
    startMaster numCPUs = ⟨numWorkers numCPUs, numWorkers numCPUs⟩ := by
  unfold startMaster
  rw [forkLoop_eq (numWorkers numCPUs) (numWorkers numCPUs) 0 _ (by omega)]
  simp

theorem numWorkers_pos (numCPUs : Nat) : 1 ≤ numWorkers numCPUs := by
  unfold numWorkers
  exact le_max_left _ _

theorem exitEvent_eq (m : Master) (h : 0 < m.workers) :
    exitEvent m = some ⟨m.workers, m.forks + 1⟩ := by
  unfold exitEvent onExit Master.fork
  have : ¬ m.workers = 0 := by omega
  simp only [this, if_false, Option.some.injEq, Master.mk.injEq, and_true]
  omega

theorem runExits_eq : ∀ (k : Nat) (m : Master), 0 < m.workers →
    runExits k m = some ⟨m.workers, m.forks + k⟩ := by
  intro k
  induction k with
  | zero => intro m _; rfl
  | succ k ih =>
    intro m h
    unfold runExits
    rw [exitEvent_eq m h, Option.some_bind, ih ⟨m.workers, m.forks + 1⟩ h]
    simp only [Option.some.injEq, Master.mk.injEq, true_and]
    omega

/-- C6: for every number `n` of processing units that `os.cpus().length` can
report (an integer below `2 ^ 53`), `numWorkers` is `max(1, floor(n / 2))`, the
startup loop forks exactly that many workers, and the count is at least 1. -/
theorem numWorkers_eq_max_one_half (n : Nat) (h : n < 2 ^ 53) :
    numWorkers n = max 1 ⌊(n : ℚ) / 2⌋₊ ∧
    (startMaster n).forks = numWorkers n ∧
    (startMaster n).workers = numWorkers n ∧
    1 ≤ numWorkers n := by
  refine ⟨?_, ?_, ?_, numWorkers_pos n⟩
  · unfold numWorkers
    rw [F64.floor_div_two n h]
    have : ⌊(n : ℚ) / 2⌋₊ = n / 2 := by
      have := Nat.floor_div_eq_div (α := ℚ) n 2
      simpa using this
    rw [this]
  · rw [startMaster_eq]
  · rw [startMaster_eq]

theorem numWorkers_eq_max_one_half_witness :
    (numWorkers 0 = max 1 ⌊((0 : Nat) : ℚ) / 2⌋₊ ∧ (startMaster 0).forks = numWorkers 0 ∧
      (startMaster 0).workers = numWorkers 0 ∧ 1 ≤ numWorkers 0) ∧
    (numWorkers 8 = max 1 ⌊((8 : Nat) : ℚ) / 2⌋₊ ∧ (startMaster 8).forks = numWorkers 8 ∧
      (startMaster 8).workers = numWorkers 8 ∧ 1 ≤ numWorkers 8) ∧
    numWorkers 0 = 1 ∧ numWorkers 1 = 1 ∧ numWorkers 8 = 4 :=
  ⟨numWorkers_eq_max_one_half 0 (by decide), numWorkers_eq_max_one_half 8 (by decide),
    by decide, by decide, by decide⟩

/-- C7: after startup, every worker exit is answered by exactly one fork and
leaves `numWorkers` live workers again, for any number `k` of exits: after `k`
exits there are `numWorkers` live workers and `numWorkers + k` forks in all. -/
theorem runExits_startMaster (numCPUs k : Nat) :
    runExits k (startMaster numCPUs) =
      some ⟨numWorkers numCPUs, numWorkers numCPUs + k⟩ ∧
    exitEvent ⟨numWorkers numCPUs, numWorkers numCPUs + k⟩ =
      some ⟨numWorkers numCPUs, numWorkers numCPUs + k + 1⟩ := by
  constructor
  · rw [startMaster_eq]
    exact runExits_eq k ⟨numWorkers numCPUs, numWorkers numCPUs⟩ (numWorkers_pos numCPUs)
  · exact exitEvent_eq ⟨numWorkers numCPUs, numWorkers numCPUs + k⟩ (numWorkers_pos numCPUs)

/-! ## The job handler -/

set_option maxRecDepth 8000 in
theorem progressOf_one : progressOf 1 = 33 := by decide

set_option maxRecDepth 8000 in
theorem progressOf_two : progressOf 2 = 66 := by decide

set_option maxRecDepth 8000 in
theorem progressOf_three : progressOf 3 = 100 := by decide

/-- The six completion orders of the three sub-tasks. -/
theorem perm_allTasks_cases (order : List SubTask) (h : order.Perm allTasks) :
    order = [.thumbnail, .preview, .save] ∨ order = [.thumbnail, .save, .preview] ∨
    order = [.preview, .thumbnail, .save] ∨ order = [.preview, .save, .thumbnail] ∨
    order = [.save, .thumbnail, .preview] ∨ order = [.save, .preview, .thumbnail] := by
  have hl : order.length = 3 := h.length_eq
  match order, hl with
  | [a, b, c], _ =>
    cases a <;> cases b <;> cases c <;> first
      | (exfalso; revert h; decide)
      | simp

theorem runJob_snoc (env : Env) (data : JobData) (outcome : SubTask → Option String)
    (images : List ImageDoc) (l : List SubTask) (t : SubTask) :
    runJob env data outcome images (l ++ [t]) =
      finish env data (runJob env data outcome images l) t (outcome t) := by
  simp [runJob, List.foldl_append]

/-- What one finishing sub-task does to each component of the state. -/
theorem finish_eq (env : Env) (data : JobData) (s : HandlerState) (t : SubTask)
    (err : Option String) :
    finish env data s t err =
      { completed := s.completed + 1
        errors := s.errors ++ (if err.isSome then [t.reason] else [])
        progressLog := s.progressLog ++ [progressOf (s.completed + 1)]
        doneLog := s.doneLog ++
          (if s.completed + 1 = 3 then
            [verdict env data (s.errors ++ (if err.isSome then [t.reason] else []))]
           else [])
        images := s.images ++ (if t = .save ∧ err.isNone then [newImage env data] else []) } := by
  unfold finish callback checkComplete verdict
  cases err <;> by_cases h1 : t = .save <;> by_cases h3 : s.completed + 1 = 3 <;>
    by_cases h5 : s.errors.length > 0 <;>
    simp [h1, h3, h5]

theorem runJob_nil (env : Env) (data : JobData) (outcome : SubTask → Option String)
    (images : List ImageDoc) : runJob env data outcome images [] = startJob images := rfl

theorem runJob_completed (env : Env) (data : JobData) (outcome : SubTask → Option String)
    (images : List ImageDoc) (l : List SubTask) :
    (runJob env data outcome images l).completed = l.length := by
  induction l using List.reverseRecOn with
  | nil => rfl
  | append_singleton l t ih => rw [runJob_snoc, finish_eq]; simp [ih]

theorem runJob_errors (env : Env) (data : JobData) (outcome : SubTask → Option String)
    (images : List ImageDoc) (l : List SubTask) :
    (runJob env data outcome images l).errors = (failedTasks outcome l).map SubTask.reason := by
  induction l using List.reverseRecOn with
  | nil => rfl
  | append_singleton l t ih =>
    rw [runJob_snoc, finish_eq]
    cases h : outcome t <;> simp [ih, failedTasks, List.filter_append, List.filter_cons, h]

theorem runJob_progressLog (env : Env) (data : JobData) (outcome : SubTask → Option String)
    (images : List ImageDoc) (l : List SubTask) :
    (runJob env data outcome images l).progressLog =
      (List.range l.length).map (fun i => progressOf (i + 1)) := by
  induction l using List.reverseRecOn with
  | nil => rfl
  | append_singleton l t ih =>
    rw [runJob_snoc, finish_eq]
    simp [ih, runJob_completed, List.range_succ]

theorem runJob_images (env : Env) (data : JobData) (outcome : SubTask → Option String)
    (images : List ImageDoc) (l : List SubTask) :
    (runJob env data outcome images l).images =
      images ++ (l.filter (fun t => t = .save ∧ (outcome t).isNone)).map
        (fun _ => newImage env data) := by
  induction l using List.reverseRecOn with
  | nil => simp [runJob_nil, startJob]
  | append_singleton l t ih =>
    rw [runJob_snoc, finish_eq]
    by_cases h : t = .save ∧ (outcome t).isNone
    · obtain ⟨ht, hn⟩ := h
      subst ht
      have hs : outcome SubTask.save = none := by simpa using hn
      simp [ih, List.filter_append, List.filter_cons, hs, List.replicate_add]
    · simp only [ih, h, if_false, List.append_nil, List.filter_append, List.filter_cons,
        decide_False, List.filter_nil, Bool.false_eq_true]

theorem runJob_doneLog (env : Env) (data : JobData) (outcome : SubTask → Option String)
    (images : List ImageDoc) (l : List SubTask) :
    (runJob env data outcome images l).doneLog =
      if l.length < 3 then []
      else [verdict env data ((failedTasks outcome (l.take 3)).map SubTask.reason)] := by
  induction l using List.reverseRecOn with
  | nil => rfl
  | append_singleton l t ih =>
    rw [runJob_snoc, finish_eq]
    simp only [ih, runJob_completed, runJob_errors, List.length_append, List.length_singleton]
    by_cases h2 : l.length + 1 = 3
    · have hlt : l.length < 3 := by omega
      have hnl : ¬ (l.length + 1 < 3) := by omega
      have htake : (l ++ [t]).take 3 = l ++ [t] := List.take_of_length_le (by simp; omega)
      rw [htake]
      cases h : outcome t <;>
        simp [hlt, hnl, h2, failedTasks, List.filter_append, List.filter_cons, h]
    · by_cases h3 : l.length < 3
      · have : l.length + 1 < 3 := by omega
        simp [h2, h3, this]
      · have : ¬ (l.length + 1 < 3) := by omega
        have htake : (l ++ [t]).take 3 = l.take 3 := by
          rw [List.take_append_of_le_length (by omega)]
        simp [h2, h3, this, htake]

theorem mem_of_perm_allTasks (order : List SubTask) (h : order.Perm allTasks) (t : SubTask) :
    t ∈ order := by
  rw [h.mem_iff]
  cases t <;> simp [allTasks]

theorem mem_failedTasks (outcome : SubTask → Option String) (order : List SubTask)
    (h : order.Perm allTasks) (t : SubTask) :
    t ∈ failedTasks outcome order ↔ (outcome t).isSome = true := by
  simp [failedTasks, List.mem_filter, mem_of_perm_allTasks order h t]

theorem failedTasks_mem_taskLists (outcome : SubTask → Option String) (order : List SubTask)
    (h : order.Perm allTasks) : failedTasks outcome order ∈ taskLists := by
  rcases perm_allTasks_cases order h with rfl | rfl | rfl | rfl | rfl | rfl <;>
    cases h1 : outcome .thumbnail <;> cases h2 : outcome .preview <;>
    cases h3 : outcome .save <;>
    simp [failedTasks, List.filter_cons, h1, h2, h3, taskLists]

/-- The final state of a job whose three sub-tasks finished in `order`. -/
theorem runJob_perm (env : Env) (data : JobData) (outcome : SubTask → Option String)
    (images : List ImageDoc) (order : List SubTask) (h : order.Perm allTasks) :
    (runJob env data outcome images order).doneLog =
        [verdict env data ((failedTasks outcome order).map SubTask.reason)] ∧
    (runJob env data outcome images order).progressLog = [33, 66, 100] := by
  have hl : order.length = 3 := h.length_eq
  constructor
  · rw [runJob_doneLog, List.take_of_length_le (by omega)]
    simp [hl]
  · rw [runJob_progressLog, hl]
    simp [List.range_succ, progressOf_one, progressOf_two, progressOf_three]

set_option maxRecDepth 100000 in
/-- In the joined message of a duplicate-free list of failed sub-tasks, the
reason of a sub-task occurs once if it is in the list and not at all
otherwise. -/
theorem occurrences_reason : ∀ l ∈ taskLists, ∀ t ∈ allTasks,
    occurrences (SubTask.reason t) (", ".intercalate (l.map SubTask.reason)) =
      if t ∈ l then 1 else 0 := by
  decide

theorem failedTasks_eq_nil_iff (outcome : SubTask → Option String) (order : List SubTask)
    (h : order.Perm allTasks) : failedTasks outcome order = [] ↔ ∀ t, outcome t = none := by
  rw [List.eq_nil_iff_forall_not_mem]
  constructor
  · intro hn t
    have := hn t
    rw [mem_failedTasks outcome order h t] at this
    cases ho : outcome t with
    | none => rfl
    | some e => rw [ho] at this; simp at this
  · intro hall t
    rw [mem_failedTasks outcome order h t, hall t]
    simp

theorem verdict_nil (env : Env) (data : JobData) :
    verdict env data [] = DoneCall.success
      { filename := data.filename
        thumbnail := thumbnailPath env data
        preview := previewPath env data } := by
  simp [verdict]

theorem verdict_map_reason_ne_nil (env : Env) (data : JobData) (l : List SubTask) (hl : l ≠ []) :
    verdict env data (l.map SubTask.reason) =
      DoneCall.error (", ".intercalate (l.map SubTask.reason)) := by
  cases l with
  | nil => exact absurd rfl hl
  | cons a l => simp [verdict]

/-! ## The claims -/

/-- C1: once all three sub-tasks have finished, in whatever order, `done` has
been called with the success value iff all three succeeded and with an error
iff at least one failed; whether the call is a success does not depend on the
completion order. -/
theorem done_success_iff_all_succeeded (env : Env) (data : JobData)
    (outcome : SubTask → Option String) (images : List ImageDoc) (order : List SubTask)
    (h : order.Perm allTasks) :
    ((runJob env data outcome images order).doneLog =
        [DoneCall.success
          { filename := data.filename
            thumbnail := thumbnailPath env data
            preview := previewPath env data }] ↔ ∀ t, outcome t = none) ∧
    ((∃ msg, (runJob env data outcome images order).doneLog = [DoneCall.error msg]) ↔
        ∃ t, outcome t ≠ none) ∧
    (∀ order2 : List SubTask, order2.Perm allTasks →
      (runJob env data outcome images order2).doneLog.map DoneCall.isSuccess =
        (runJob env data outcome images order).doneLog.map DoneCall.isSuccess) := by
  have key : ∀ o : List SubTask, o.Perm allTasks →
      ((∀ t, outcome t = none) → (runJob env data outcome images o).doneLog =
        [DoneCall.success
          { filename := data.filename
            thumbnail := thumbnailPath env data
            preview := previewPath env data }]) ∧
      (¬ (∀ t, outcome t = none) → (runJob env data outcome images o).doneLog =
        [DoneCall.error (", ".intercalate ((failedTasks outcome o).map SubTask.reason))]) := by
    intro o ho
    rw [(runJob_perm env data outcome images o ho).1]
    constructor
    · intro hall
      rw [(failedTasks_eq_nil_iff outcome o ho).2 hall]
      simp [verdict_nil]
    · intro hnot
      have hne : failedTasks outcome o ≠ [] := fun hnil =>
        hnot ((failedTasks_eq_nil_iff outcome o ho).1 hnil)
      rw [verdict_map_reason_ne_nil env data _ hne]
  by_cases hall : ∀ t, outcome t = none
  · refine ⟨?_, ?_, ?_⟩
    · exact ⟨fun _ => hall, fun _ => (key order h).1 hall⟩
    · constructor
      · rintro ⟨msg, hmsg⟩
        rw [(key order h).1 hall] at hmsg
        simp at hmsg
      · rintro ⟨t, ht⟩
        exact absurd (hall t) ht
    · intro o2 h2
      rw [(key o2 h2).1 hall, (key order h).1 hall]
  · refine ⟨?_, ?_, ?_⟩
    · constructor
      · intro hd
        rw [(key order h).2 hall] at hd
        simp at hd
      · intro hh
        exact absurd hh hall
    · constructor
      · intro _
        by_contra hcon
        apply hall
        intro t
        by_contra ht
        exact hcon ⟨t, ht⟩
      · intro _
        exact ⟨_, (key order h).2 hall⟩
    · intro o2 h2
      rw [(key o2 h2).2 hall, (key order h).2 hall]
      rfl

theorem done_success_iff_all_succeeded_witness :
    [SubTask.save, SubTask.thumbnail, SubTask.preview].Perm allTasks ∧
    ((runJob sampleEnv sampleData (fun _ => none) []
        [SubTask.save, SubTask.thumbnail, SubTask.preview]).doneLog =
        [DoneCall.success
          { filename := sampleData.filename
            thumbnail := thumbnailPath sampleEnv sampleData
            preview := previewPath sampleEnv sampleData }] ↔
      ∀ t : SubTask, (fun _ => none : SubTask → Option String) t = none) :=
  ⟨by decide,
   (done_success_iff_all_succeeded sampleEnv sampleData (fun _ => none) []
      [SubTask.save, SubTask.thumbnail, SubTask.preview] (by decide)).1⟩

/-- C2: for a job with at least one failed sub-task, the message passed to
`done` is the reasons of the failed sub-tasks, in completion order, joined by
a comma and a space; the reason of each failed sub-task occurs in it exactly
once and the reason of a sub-task that succeeded does not occur. -/
theorem error_message_lists_failed_reasons (env : Env) (data : JobData)
    (outcome : SubTask → Option String) (images : List ImageDoc) (order : List SubTask)
    (h : order.Perm allTasks) (hf : ∃ t, outcome t ≠ none) :
    (runJob env data outcome images order).doneLog =
      [DoneCall.error (", ".intercalate ((failedTasks outcome order).map SubTask.reason))] ∧
    ∀ t : SubTask,
      occurrences t.reason (", ".intercalate ((failedTasks outcome order).map SubTask.reason)) =
        if (outcome t).isSome then 1 else 0 := by
  constructor
  · rw [(runJob_perm env data outcome images order h).1]
    have hne : failedTasks outcome order ≠ [] := by
      intro hnil
      obtain ⟨t, ht⟩ := hf
      exact ht ((failedTasks_eq_nil_iff outcome order h).1 hnil t)
    rw [verdict_map_reason_ne_nil env data _ hne]
  · intro t
    have ht : t ∈ allTasks := by cases t <;> simp [allTasks]
    rw [occurrences_reason _ (failedTasks_mem_taskLists outcome order h) t ht]
    simp only [mem_failedTasks outcome order h t]

theorem error_message_lists_failed_reasons_witness :
    [SubTask.preview, SubTask.save, SubTask.thumbnail].Perm allTasks ∧
    (∃ t, transformsFail t ≠ none) ∧
    (runJob sampleEnv sampleData transformsFail []
        [SubTask.preview, SubTask.save, SubTask.thumbnail]).doneLog =
      [DoneCall.error "preview failed, thumbnail failed"] :=
  ⟨by decide, ⟨SubTask.thumbnail, by decide⟩,
   (error_message_lists_failed_reasons sampleEnv sampleData transformsFail []
      [SubTask.preview, SubTask.save, SubTask.thumbnail] (by decide)
      ⟨SubTask.thumbnail, by decide⟩).1⟩

/-- C3, as stated, fails: a job whose thumbnail transform fails ends failed and
has reported progress 100 all the same. -/
theorem hundred_reported_for_failed_job :
    ¬ (100 ∈ (runJob sampleEnv sampleData thumbnailFails [] allTasks).progressLog ↔
        reachedCompleted (runJob sampleEnv sampleData thumbnailFails [] allTasks)) := by
  have hp := runJob_perm sampleEnv sampleData thumbnailFails [] allTasks (List.Perm.refl _)
  intro hiff
  have h100 : 100 ∈ (runJob sampleEnv sampleData thumbnailFails [] allTasks).progressLog := by
    rw [hp.2]; decide
  obtain ⟨r, hr⟩ := hiff.1 h100
  rw [hp.1] at hr
  have hv : verdict sampleEnv sampleData
      ((failedTasks thumbnailFails allTasks).map SubTask.reason) =
      DoneCall.error "thumbnail failed" := by decide
  rw [hv] at hr
  simp at hr

/-- C3, amended: the progress values of a job are non-decreasing, and 100 is
reported exactly when the third sub-task has finished, whether the job ends
completed or failed; so a job that reaches completed has reported 100. -/
theorem progress_monotone_hundred_at_third (env : Env) (data : JobData)
    (outcome : SubTask → Option String) (images : List ImageDoc) (order : List SubTask)
    (h : order.Perm allTasks) :
    List.Pairwise (fun a b => a ≤ b) (runJob env data outcome images order).progressLog ∧
    (∀ k : Nat, 100 ∈ (runJob env data outcome images (order.take k)).progressLog ↔ 3 ≤ k) ∧
    (reachedCompleted (runJob env data outcome images order) →
      100 ∈ (runJob env data outcome images order).progressLog) ∧
    (reachedFailed (runJob env data outcome images order) →
      100 ∈ (runJob env data outcome images order).progressLog) := by
  have hl : order.length = 3 := h.length_eq
  have hp := (runJob_perm env data outcome images order h).2
  refine ⟨?_, ?_, ?_, ?_⟩
  · rw [hp]; decide
  · intro k
    rw [runJob_progressLog, List.length_take, hl]
    have hk : k = 0 ∨ k = 1 ∨ k = 2 ∨ 3 ≤ k := by omega
    rcases hk with rfl | rfl | rfl | hk
    · simp
    · simp [List.range_succ, progressOf_one]
    · simp [List.range_succ, progressOf_one, progressOf_two]
    · rw [Nat.min_eq_right hk]
      simp [List.range_succ, progressOf_one, progressOf_two, progressOf_three, hk]
  · intro _; rw [hp]; decide
  · intro _; rw [hp]; decide

theorem progress_monotone_hundred_at_third_witness :
    allTasks.Perm allTasks ∧
    List.Pairwise (fun a b => a ≤ b)
      (runJob sampleEnv sampleData thumbnailFails [] allTasks).progressLog ∧
    (100 ∈ (runJob sampleEnv sampleData thumbnailFails [] (allTasks.take 3)).progressLog ↔
      3 ≤ 3) ∧
    (100 ∈ (runJob sampleEnv sampleData thumbnailFails [] (allTasks.take 2)).progressLog ↔
      3 ≤ 2) :=
  ⟨List.Perm.refl _,
   (progress_monotone_hundred_at_third sampleEnv sampleData thumbnailFails [] allTasks
      (List.Perm.refl _)).1,
   (progress_monotone_hundred_at_third sampleEnv sampleData thumbnailFails [] allTasks
      (List.Perm.refl _)).2.1 3,
   (progress_monotone_hundred_at_third sampleEnv sampleData thumbnailFails [] allTasks
      (List.Perm.refl _)).2.1 2⟩

/-- C4: in every completion order `done` has not been called after the first
or the second sub-task finished, and has been called exactly once after the
third. -/
theorem done_called_once (env : Env) (data : JobData) (outcome : SubTask → Option String)
    (images : List ImageDoc) (order : List SubTask) (h : order.Perm allTasks) (k : Nat) :
    (runJob env data outcome images (order.take k)).doneLog.length =
      if k < 3 then 0 else 1 := by
  have hl : order.length = 3 := h.length_eq
  rw [runJob_doneLog, List.length_take, hl]
  by_cases hk : k < 3
  · have : min k 3 < 3 := by omega
    simp [hk, this]
  · have : ¬ (min k 3 < 3) := by omega
    simp [hk, this]

theorem done_called_once_witness :
    [SubTask.save, SubTask.preview, SubTask.thumbnail].Perm allTasks ∧
    (runJob sampleEnv sampleData thumbnailFails []
      ([SubTask.save, SubTask.preview, SubTask.thumbnail].take 2)).doneLog.length =
      (if 2 < 3 then 0 else 1) ∧
    (runJob sampleEnv sampleData thumbnailFails []
      ([SubTask.save, SubTask.preview, SubTask.thumbnail].take 3)).doneLog.length =
      (if 3 < 3 then 0 else 1) :=
  ⟨by decide,
   done_called_once sampleEnv sampleData thumbnailFails []
     [SubTask.save, SubTask.preview, SubTask.thumbnail] (by decide) 2,
   done_called_once sampleEnv sampleData thumbnailFails []
     [SubTask.save, SubTask.preview, SubTask.thumbnail] (by decide) 3⟩

/-- C5: when both transforms fail and the save succeeds, then in every
completion order the collection has gained exactly one document, whose fields
are those of the job payload (`filename`, `userCid`, `galleryId`,
`fullSizeImagePath`, the two resolved paths, `userFullname` or the empty
string when that is falsy) and the time of the handler's start; the job ends
failed, and the failure message contains "thumbnail failed" and
"preview failed" but not "database save failed". -/
theorem record_stored_when_transforms_fail (env : Env) (data : JobData)
    (outcome : SubTask → Option String) (images : List ImageDoc) (order : List SubTask)
    (h : order.Perm allTasks) (ht : outcome .thumbnail ≠ none)
    (hp : outcome .preview ≠ none) (hs : outcome .save = none) :
    (runJob env data outcome images order).images = images ++
      [{ filename := data.filename
         authorCid := data.userCid
         galleryId := data.galleryId
         thumbnail := env.resolve
           [data.galleryPath, "thumbnails", data.filename ++ "." ++ data.extension]
         preview := env.resolve
           [data.galleryPath, "previews", data.filename ++ "." ++ data.extension]
         fullSize := data.fullSizeImagePath
         shotAt := env.now
         author :=
           match data.userFullname with
           | .undefined => .string ""
           | .null => .string ""
           | .nan => .string ""
           | .bool b => if b = true then .bool true else .string ""
           | .number n => if n = 0 then .string "" else .number n
           | .string s => if s = "" then .string "" else .string s
           | .object ref => .object ref }] ∧
    reachedFailed (runJob env data outcome images order) ∧
    ¬ reachedCompleted (runJob env data outcome images order) ∧
    ∃ msg, (runJob env data outcome images order).doneLog = [DoneCall.error msg] ∧
      0 < occurrences "thumbnail failed" msg ∧
      0 < occurrences "preview failed" msg ∧
      occurrences "database save failed" msg = 0 := by
  have hne : failedTasks outcome order ≠ [] := by
    intro hnil
    exact ht ((failedTasks_eq_nil_iff outcome order h).1 hnil .thumbnail)
  have hd : (runJob env data outcome images order).doneLog =
      [DoneCall.error (", ".intercalate ((failedTasks outcome order).map SubTask.reason))] := by
    rw [(runJob_perm env data outcome images order h).1,
      verdict_map_reason_ne_nil env data _ hne]
  have hocc : ∀ t : SubTask,
      occurrences t.reason (", ".intercalate ((failedTasks outcome order).map SubTask.reason)) =
        if (outcome t).isSome then 1 else 0 := by
    intro t
    have hmem : t ∈ allTasks := by cases t <;> simp [allTasks]
    rw [occurrences_reason _ (failedTasks_mem_taskLists outcome order h) t hmem]
    simp only [mem_failedTasks outcome order h t]
  have st : (outcome .thumbnail).isSome = true := by
    cases hh : outcome .thumbnail with
    | none => exact absurd hh ht
    | some e => rfl
  have sp : (outcome .preview).isSome = true := by
    cases hh : outcome .preview with
    | none => exact absurd hh hp
    | some e => rfl
  refine ⟨?_, ?_, ?_, ?_⟩
  · have hdoc : newImage env data =
        { filename := data.filename
          authorCid := data.userCid
          galleryId := data.galleryId
          thumbnail := env.resolve
            [data.galleryPath, "thumbnails", data.filename ++ "." ++ data.extension]
          preview := env.resolve
            [data.galleryPath, "previews", data.filename ++ "." ++ data.extension]
          fullSize := data.fullSizeImagePath
          shotAt := env.now
          author :=
            match data.userFullname with
            | .undefined => .string ""
            | .null => .string ""
            | .nan => .string ""
            | .bool b => if b = true then .bool true else .string ""
            | .number n => if n = 0 then .string "" else .number n
            | .string s => if s = "" then .string "" else .string s
            | .object ref => .object ref } := by
      unfold newImage thumbnailPath previewPath
      congr 1
      cases hu : data.userFullname with
      | undefined => rfl
      | null => rfl
      | nan => rfl
      | bool b => cases b <;> rfl
      | number n =>
        by_cases hn : n = 0
        · subst hn; rfl
        · simp [JsValue.or, JsValue.truthy, hn]
      | string s =>
        by_cases hs0 : s = ""
        · subst hs0; rfl
        · simp [JsValue.or, JsValue.truthy, hs0]
      | object ref => rfl
    rw [← hdoc, runJob_images]
    rcases perm_allTasks_cases order h with rfl | rfl | rfl | rfl | rfl | rfl <;>
      simp [List.filter_cons, hs]
  · exact ⟨_, by rw [hd]; exact List.mem_singleton.2 rfl⟩
  · rintro ⟨r, hr⟩
    rw [hd] at hr
    simp at hr
  · refine ⟨_, hd, ?_, ?_, ?_⟩
    · have := hocc .thumbnail
      rw [st] at this
      simp only [SubTask.reason] at this
      rw [this]
      decide
    · have := hocc .preview
      rw [sp] at this
      simp only [SubTask.reason] at this
      rw [this]
      decide
    · have := hocc .save
      rw [hs] at this
      simpa [SubTask.reason] using this

theorem record_stored_when_transforms_fail_witness :
    [SubTask.save, SubTask.preview, SubTask.thumbnail].Perm allTasks ∧
    transformsFail .thumbnail ≠ none ∧ transformsFail .preview ≠ none ∧
    transformsFail .save = none ∧
    (runJob sampleEnv sampleData transformsFail []
      [SubTask.save, SubTask.preview, SubTask.thumbnail]).images =
      [] ++
      [{ filename := "photo1"
         authorCid := .string "alice"
         galleryId := .string "g1"
         thumbnail := "/storage/g1/thumbnails/photo1.jpg"
         preview := "/storage/g1/previews/photo1.jpg"
         fullSize := "/storage/g1/photo1.jpg"
         shotAt := 1700000000000
         author := .string "Alice" }] ∧
    reachedFailed (runJob sampleEnv sampleData transformsFail []
      [SubTask.save, SubTask.preview, SubTask.thumbnail]) :=
  ⟨by decide, by decide, by decide, rfl,
   (record_stored_when_transforms_fail sampleEnv sampleData transformsFail []
      [SubTask.save, SubTask.preview, SubTask.thumbnail] (by decide) (by decide) (by decide)
      rfl).1,
   (record_stored_when_transforms_fail sampleEnv sampleData transformsFail []
      [SubTask.save, SubTask.preview, SubTask.thumbnail] (by decide) (by decide) (by decide)
      rfl).2.1⟩

/-- C8: whatever the outcomes and the completion order, the progress value
reported when the `k`-th sub-task finishes is `floor(k / 3 * 100)`: the values
are 33, 66, 100 in that order, all within 0..100. -/
theorem progress_values (env : Env) (data : JobData) (outcome : SubTask → Option String)
    (images : List ImageDoc) (order : List SubTask) (h : order.Perm allTasks) :
    (runJob env data outcome images order).progressLog = [33, 66, 100] ∧
    (runJob env data outcome images order).progressLog =
      [1, 2, 3].map (fun k : Nat => ⌊(k : ℚ) / 3 * 100⌋₊) ∧
    (∀ k : Nat, (runJob env data outcome images (order.take k)).progressLog =
      ([33, 66, 100] : List Nat).take k) ∧
    ∀ p ∈ (runJob env data outcome images order).progressLog, p ≤ 100 := by
  have hl : order.length = 3 := h.length_eq
  have hp := (runJob_perm env data outcome images order h).2
  have f1 : ⌊((1 : Nat) : ℚ) / 3 * 100⌋₊ = 33 := by
    rw [Nat.floor_eq_iff (by positivity)]; constructor <;> norm_num
  have f2 : ⌊((2 : Nat) : ℚ) / 3 * 100⌋₊ = 66 := by
    rw [Nat.floor_eq_iff (by positivity)]; constructor <;> norm_num
  have f3 : ⌊((3 : Nat) : ℚ) / 3 * 100⌋₊ = 100 := by
    rw [Nat.floor_eq_iff (by positivity)]; constructor <;> norm_num
  refine ⟨hp, ?_, ?_, ?_⟩
  · rw [hp]
    simp only [List.map_cons, List.map_nil, f1, f2, f3]
  · intro k
    rw [runJob_progressLog, List.length_take, hl]
    have hk : k = 0 ∨ k = 1 ∨ k = 2 ∨ 3 ≤ k := by omega
    rcases hk with rfl | rfl | rfl | hk
    · simp
    · simp [List.range_succ, progressOf_one]
    · simp [List.range_succ, progressOf_one, progressOf_two]
    · rw [Nat.min_eq_right hk, List.take_of_length_le (by simpa using hk)]
      simp [List.range_succ, progressOf_one, progressOf_two, progressOf_three]
  · rw [hp]; decide

theorem progress_values_witness :
    [SubTask.preview, SubTask.thumbnail, SubTask.save].Perm allTasks ∧
    (runJob sampleEnv sampleData transformsFail []
      [SubTask.preview, SubTask.thumbnail, SubTask.save]).progressLog = [33, 66, 100] ∧
    (runJob sampleEnv sampleData transformsFail []
      ([SubTask.preview, SubTask.thumbnail, SubTask.save].take 2)).progressLog =
      ([33, 66, 100] : List Nat).take 2 :=
  ⟨by decide,
   (progress_values sampleEnv sampleData transformsFail []
      [SubTask.preview, SubTask.thumbnail, SubTask.save] (by decide)).1,
   (progress_values sampleEnv sampleData transformsFail []
      [SubTask.preview, SubTask.thumbnail, SubTask.save] (by decide)).2.2.1 2⟩

/-- C9: the document built by the handler takes `filename`, `authorCid`,
`galleryId` and `fullSize` unchanged from the payload; its `author` is the
payload's `userFullname` when that is a non-empty string, and the empty string
when `userFullname` is `undefined`, `null` or the empty string. -/
theorem newImage_fields (env : Env) (data : JobData) :
    (newImage env data).filename = data.filename ∧
    (newImage env data).authorCid = data.userCid ∧
    (newImage env data).galleryId = data.galleryId ∧
    (newImage env data).fullSize = data.fullSizeImagePath ∧
    (∀ s : String, data.userFullname = .string s → s ≠ "" →
      (newImage env data).author = .string s) ∧
    (data.userFullname = .undefined ∨ data.userFullname = .null ∨
      data.userFullname = .string "" → (newImage env data).author = .string "") := by
  refine ⟨rfl, rfl, rfl, rfl, ?_, ?_⟩
  · intro s hs hne
    simp [newImage, hs, JsValue.or, JsValue.truthy, hne]
  · rintro (hu | hu | hu) <;> simp [newImage, hu, JsValue.or, JsValue.truthy]

theorem newImage_fields_witness :
    (newImage sampleEnv sampleData).author = .string "Alice" ∧
    (newImage sampleEnv { sampleData with userFullname := .undefined }).author = .string "" ∧
    (newImage sampleEnv { sampleData with userFullname := .null }).author = .string "" ∧
    (newImage sampleEnv { sampleData with userFullname := .string "" }).author = .string "" :=
  ⟨(newImage_fields sampleEnv sampleData).2.2.2.2.1 "Alice" rfl (by decide),
   (newImage_fields sampleEnv { sampleData with userFullname := .undefined }).2.2.2.2.2
     (Or.inl rfl),
   (newImage_fields sampleEnv { sampleData with userFullname := .null }).2.2.2.2.2
     (Or.inr (Or.inl rfl)),
   (newImage_fields sampleEnv { sampleData with userFullname := .string "" }).2.2.2.2.2
     (Or.inr (Or.inr rfl))⟩

/-- C10: the reported state is "completed" whenever `finishedOn` is truthy,
"active" whenever `processedOn` is truthy and `finishedOn` is not, both
whatever `failedReason` is; it is "failed" exactly when `failedReason` is
truthy and neither `finishedOn` nor `processedOn` is; and it is always one of
the four state names. -/
theorem queueState_priority (job : QueueJob) :
    (job.finishedOn.truthy = true → queueState job = "completed") ∧
    (job.finishedOn.truthy = false → job.processedOn.truthy = true →
      queueState job = "active") ∧
    (queueState job = "failed" ↔
      job.failedReason.truthy = true ∧ job.finishedOn.truthy = false ∧
        job.processedOn.truthy = false) ∧
    (queueState job = "waiting" ∨ queueState job = "active" ∨
      queueState job = "completed" ∨ queueState job = "failed") := by
  unfold queueState
  cases h1 : job.finishedOn.truthy <;> cases h2 : job.processedOn.truthy <;>
    cases h3 : job.failedReason.truthy <;> simp

theorem queueState_priority_witness :
    queueState ⟨.number 1700000000500, .number 1700000000000, .string "thumbnail failed"⟩ =
      "completed" ∧
    queueState ⟨.undefined, .number 1700000000000, .string "thumbnail failed"⟩ = "active" :=
  ⟨(queueState_priority
      ⟨.number 1700000000500, .number 1700000000000, .string "thumbnail failed"⟩).1 (by decide),
   (queueState_priority
      ⟨.undefined, .number 1700000000000, .string "thumbnail failed"⟩).2.1 (by decide)
      (by decide)⟩

end Dfotose
